import Mathlib

/-!
Verification development for `src/createReducer.ts`: the reducer builder that
turns a map from action type to case reducer into a single Redux-style
transition function, wrapping each case reducer in the immer producer `createNextState`.

The embedding models JavaScript values with an explicit heap of object
references, so that "same reference, not a copy" and structural sharing are
expressible. The structural-sharing producer (`createNextState`, from the
external immer library, absent from the sources of this repository) is modelled
from the producer contract of the spec. The dispatch code of `createReducer`
itself is translated directly from the source, including the semantics of
the JavaScript property access `actionsMap[action.type]`: lookup falls back
to the prototype chain of a plain object (`Object.prototype`), and a key of
`undefined` is coerced to the property key string `"undefined"`.
-/

/-- A reference into the heap of JavaScript objects. -/
abbrev Ref := Nat

/-- A JavaScript value: a primitive, or a reference to a heap object. -/
inductive JSValue where
  | undef
  | null
  | bool (b : Bool)
  | num (n : Int)
  | str (s : String)
  | ref (r : Ref)
deriving DecidableEq, Repr

/-- A JavaScript object: an ordered list of named fields. -/
structure JSObject where
  fields : List (String × JSValue)
deriving DecidableEq, Repr

/-- The heap: an association of references to objects. Allocation conses a
fresh reference; existing entries are never overwritten. -/
abbrev Heap := List (Ref × JSObject)

/-- First-match association-list lookup (models exact-key lookup of own
properties of a plain object, and heap dereferencing). -/
def assoc {α β : Type} [DecidableEq α] : α → List (α × β) → Option β
  | _, [] => none
  | k, (k', v) :: rest => if k' = k then some v else assoc k rest

/-- The largest reference mentioned by a heap (0 for the empty heap). -/
def Heap.maxRef : Heap → Nat
  | [] => 0
  | (r, _) :: t => max r (Heap.maxRef t)

/-- A reference guaranteed not to occur in the heap, used for allocation. -/
def Heap.fresh (h : Heap) : Ref := Heap.maxRef h + 1

/-- A value a case reducer produces: either an already-existing value
(primitive or existing reference), or a brand-new object to be allocated. -/
inductive ValSpec where
  | prim (v : JSValue)
  | newObj (fields : List (String × JSValue))
deriving Repr

/-- Allocate a `ValSpec` in the heap: primitives and existing references are
returned as-is; a new object literal is placed at a fresh reference. -/
def allocSpec (h : Heap) : ValSpec → Heap × JSValue
  | .prim v => (h, v)
  | .newObj fs => ((Heap.fresh h, ⟨fs⟩) :: h, .ref (Heap.fresh h))

/-- What the invocation of a case reducer came to: an explicit return of a value
other than `undefined`, a void return (`undefined`), or a thrown exception. -/
inductive HandlerResult where
  | ret (v : ValSpec)
  | voidRet
  | throw (msg : String)
deriving Repr

/-- The observable outcome of running a case reducer on a draft: the
top-level field assignments it performed on the draft, in order, and how it
finished. -/
structure CaseOutcome where
  edits : List (String × ValSpec)
  result : HandlerResult

/-- An action: a value carrying an optional `type` discriminator (none models
a malformed action whose `type` property is absent, i.e. `undefined`) and an
arbitrary payload. -/
structure ActionV where
  type? : Option String
  payload : JSValue

/-- A case reducer, modelled semantically: from the heap, the underlying
value of the draft and the action, compute the outcome. -/
abbrev CaseReducer := Heap → JSValue → ActionV → CaseOutcome

/-- JavaScript field assignment on the field list of an object: replace the first
binding of the key in place, or append a new binding. -/
def setField : List (String × JSValue) → String → JSValue → List (String × JSValue)
  | [], k, v => [(k, v)]
  | (k', v') :: rest, k, v =>
    if k' = k then (k, v) :: rest else (k', v') :: setField rest k v

/-- Apply the draft edits in order, allocating each assigned value. -/
def applyEdits : Heap → List (String × JSValue) → List (String × ValSpec) →
    Heap × List (String × JSValue)
  | h, fields, [] => (h, fields)
  | h, fields, (k, vs) :: rest =>
    let p := allocSpec h vs
    applyEdits p.1 (setField fields k p.2) rest

/-- Modelled from the spec: the structural-sharing producer
`createNextState` of the external immer library, which is not part of the
sources of this repository. Per the producer contract: the recipe may mutate the
draft and/or return a replacement value; a returned value other than
`undefined` becomes the result and short-circuits draft reconciliation; a
void return with no edits yields the base value itself (the same reference);
a void return with edits yields a freshly allocated object whose untouched
fields share the field values of the base object; the base is never altered; a
thrown exception propagates and no state is produced. -/
def createNextState (h : Heap) (base : JSValue)
    (recipe : Heap → JSValue → CaseOutcome) : Except String (Heap × JSValue) :=
  let o := recipe h base
  match o.result with
  | .throw msg => .error msg
  | .ret vs =>
    let p := allocSpec h vs
    .ok (p.1, p.2)
  | .voidRet =>
    match o.edits with
    | [] => .ok (h, base)
    | _ :: _ =>
      match base with
      | .ref r =>
        match assoc r h with
        | some obj =>
          let p := applyEdits h obj.fields o.edits
          .ok ((Heap.fresh p.1, ⟨p.2⟩) :: p.1, .ref (Heap.fresh p.1))
        | none => .ok (h, base)
      | _ => .ok (h, base)

/-- A mapping from action type to case reducer: the own properties of the
plain object handed to `createReducer`. -/
abbrev HandlerMap := List (String × CaseReducer)

/-- The property key actually used by `actionsMap[action.type]`: a missing
`type` property reads as `undefined`, which property access coerces to the
string key `"undefined"`. -/
def propertyKey (a : ActionV) : String :=
  match a.type? with
  | some k => k
  | none => "undefined"

/-- Whether a key names an own property of `Object.prototype`, all of which
a plain object literal inherits. -/
def isProtoKey (k : String) : Bool :=
  k == "constructor" || k == "toString" || k == "toLocaleString" ||
  k == "valueOf" || k == "hasOwnProperty" || k == "isPrototypeOf" ||
  k == "propertyIsEnumerable" || k == "__proto__" ||
  k == "__defineGetter__" || k == "__defineSetter__" ||
  k == "__lookupGetter__" || k == "__lookupSetter__"

/-- Behaviour of an inherited `Object.prototype` member when it is invoked as
`caseReducer(draft, action)` — a plain strict-mode call, so `this` is
`undefined`: `toString` returns the string "[object Undefined]";
`constructor` is `Object`, which called on the draft returns the draft
itself, which the producer treats like a void return; the remaining members
throw a `TypeError` on an `undefined` receiver (and `__proto__` reads as a
non-callable object). -/
def protoInvoke (k : String) : CaseOutcome :=
  if k == "toString" then ⟨[], .ret (.prim (.str "[object Undefined]"))⟩
  else if k == "constructor" then ⟨[], .voidRet⟩
  else ⟨[], .throw "TypeError"⟩

/-- The JavaScript property access `actionsMap[k]` on a plain object: an own
property if present, otherwise an inherited `Object.prototype` property,
otherwise `undefined`. -/
def getProperty (m : HandlerMap) (k : String) : Option CaseReducer :=
  match assoc k m with
  | some cr => some cr
  | none => if isProtoKey k then some (fun _ _ _ => protoInvoke k) else none

/-- The recipe `createReducer` passes to `createNextState` (source lines
59–62): look the case reducer up by `action.type`; if it is truthy invoke it
on the draft and the action, otherwise return `undefined`. -/
def reducerRecipe (actionsMap : HandlerMap) (action : ActionV) :
    Heap → JSValue → CaseOutcome :=
  fun h draft =>
    match getProperty actionsMap (propertyKey action) with
    | some caseReducer => caseReducer h draft action
    | none => ⟨[], .voidRet⟩

/-- Translation of `createReducer` (source lines 51–64): the returned
transition function defaults an `undefined` state argument to
`initialState`, then runs the dispatch recipe through `createNextState`.
The heap is threaded explicitly. -/
def createReducer (initialState : JSValue) (actionsMap : HandlerMap) :
    JSValue → ActionV → Heap → Except String (Heap × JSValue) :=
  fun state action h =>
    createNextState h (if state = JSValue.undef then initialState else state)
      (reducerRecipe actionsMap action)

/-! Helper lemmas about the heap and field lists. -/

theorem assoc_le_maxRef {h : Heap} {r : Ref} {o : JSObject}
    (hr : assoc r h = some o) : r ≤ Heap.maxRef h := by
  induction h with
  | nil => exact absurd hr (by simp [assoc])
  | cons p t ih =>
    obtain ⟨r₀, o₀⟩ := p
    simp only [assoc] at hr
    simp only [Heap.maxRef]
    split at hr
    · rename_i heq
      rw [← heq]
      exact le_max_left _ _
    · exact le_trans (ih hr) (le_max_right _ _)

theorem assoc_cons_fresh {h : Heap} {r : Ref} {o : JSObject} (x : JSObject)
    (hr : assoc r h = some o) :
    assoc r ((Heap.fresh h, x) :: h) = some o := by
  have hle := assoc_le_maxRef hr
  have hlt : r < Heap.fresh h := Nat.lt_succ_of_le hle
  have hne : ¬ Heap.fresh h = r := by
    intro hEq
    exact absurd (hEq ▸ hlt) (lt_irrefl r)
  simp only [assoc, if_neg hne]
  exact hr

theorem allocSpec_preserves {h : Heap} {r : Ref} {o : JSObject} (vs : ValSpec)
    (hr : assoc r h = some o) : assoc r (allocSpec h vs).1 = some o := by
  cases vs with
  | prim v => exact hr
  | newObj fs => exact assoc_cons_fresh _ hr

theorem applyEdits_preserves {r : Ref} {o : JSObject} :
    ∀ (es : List (String × ValSpec)) (h : Heap) (fs : List (String × JSValue)),
      assoc r h = some o → assoc r (applyEdits h fs es).1 = some o := by
  intro es
  induction es with
  | nil => intro h fs hr; exact hr
  | cons e rest ih =>
    intro h fs hr
    obtain ⟨k, vs⟩ := e
    simp only [applyEdits]
    exact ih _ _ (allocSpec_preserves vs hr)

theorem createNextState_preserves {h h' : Heap} {base v : JSValue}
    {recipe : Heap → JSValue → CaseOutcome} {r : Ref} {o : JSObject}
    (hok : createNextState h base recipe = Except.ok (h', v))
    (hr : assoc r h = some o) : assoc r h' = some o := by
  simp only [createNextState] at hok
  split at hok
  · exact absurd hok (by simp)
  · simp only [Except.ok.injEq, Prod.mk.injEq] at hok
    obtain ⟨hh, _⟩ := hok
    subst hh
    exact allocSpec_preserves _ hr
  · split at hok
    · simp only [Except.ok.injEq, Prod.mk.injEq] at hok
      obtain ⟨hh, _⟩ := hok
      subst hh
      exact hr
    · split at hok
      case _ r₀ =>
        split at hok
        · simp only [Except.ok.injEq, Prod.mk.injEq] at hok
          obtain ⟨hh, _⟩ := hok
          subst hh
          exact assoc_cons_fresh _ (applyEdits_preserves _ _ _ hr)
        · simp only [Except.ok.injEq, Prod.mk.injEq] at hok
          obtain ⟨hh, _⟩ := hok
          subst hh
          exact hr
      all_goals
        simp only [Except.ok.injEq, Prod.mk.injEq] at hok
      all_goals
        obtain ⟨hh, _⟩ := hok
      all_goals
        subst hh
      all_goals
        exact hr

theorem transition_identity_of_lookup_none (i s : JSValue) (m : HandlerMap)
    (a : ActionV) (h : Heap) (hs : s ≠ JSValue.undef)
    (hget : getProperty m (propertyKey a) = none) :
    createReducer i m s a h = Except.ok (h, s) := by
  simp [createReducer, createNextState, reducerRecipe, hget, hs]

theorem assoc_setField_same (fs : List (String × JSValue)) (k : String)
    (v : JSValue) : assoc k (setField fs k v) = some v := by
  induction fs with
  | nil => simp [setField, assoc]
  | cons p rest ih =>
    obtain ⟨k', v'⟩ := p
    by_cases he : k' = k
    · subst he
      simp [setField, assoc]
    · simp [setField, assoc, he, ih]

theorem assoc_setField_ne (fs : List (String × JSValue)) (k f : String)
    (v : JSValue) (hne : f ≠ k) :
    assoc f (setField fs k v) = assoc f fs := by
  induction fs with
  | nil => simp [setField, assoc, Ne.symm hne]
  | cons p rest ih =>
    obtain ⟨k', v'⟩ := p
    by_cases he : k' = k
    · subst he
      simp [setField, assoc, Ne.symm hne]
    · simp [setField, assoc, he, ih]

/-! Claim theorems. -/

/-- C1 (counterexample): the claim "for every state s and every action a
whose kind has no handler registered in the map, transition(s, a) returns s
itself" is false on the code at a concrete input: with an empty handler map,
state the object reference 0 and an action of type "toString" — a kind with
no registered handler — the transition function does not return the state;
the property access falls back to the inherited Object.prototype.toString,
which is truthy, gets invoked as a case reducer, and its return value, the
string "[object Undefined]", becomes the next state. -/
theorem c1_counterexample :
    createReducer (JSValue.num 0) [] (JSValue.ref 0)
        ⟨some "toString", JSValue.undef⟩ [(0, ⟨[("count", JSValue.num 3)]⟩)]
      = Except.ok ([(0, ⟨[("count", JSValue.num 3)]⟩)],
          JSValue.str "[object Undefined]")
    ∧ JSValue.str "[object Undefined]" ≠ JSValue.ref 0 :=
  ⟨rfl, by decide⟩

/-- C1 (amended): for every defined (non-undefined) state s and every action
a whose kind, used as a property key, neither matches an own entry of the
handler map nor names an inherited Object.prototype property, the transition
function returns s itself — the identical reference, not a copy (the heap is
returned untouched and the result is the very value s). -/
theorem c1_identity_on_miss_amended (i s : JSValue) (m : HandlerMap)
    (a : ActionV) (h : Heap) (hs : s ≠ JSValue.undef)
    (hown : assoc (propertyKey a) m = none)
    (hproto : isProtoKey (propertyKey a) = false) :
    createReducer i m s a h = Except.ok (h, s) := by
  have hget : getProperty m (propertyKey a) = none := by
    simp [getProperty, hown, hproto]
  exact transition_identity_of_lookup_none i s m a h hs hget

/-- Witness for C1 (amended) at a concrete input: empty handler map, state 1,
action type "inc". -/
theorem c1_identity_on_miss_amended_witness :
    ((JSValue.num 1 ≠ JSValue.undef)
      ∧ assoc (propertyKey ⟨some "inc", JSValue.undef⟩) ([] : HandlerMap) = none
      ∧ isProtoKey (propertyKey ⟨some "inc", JSValue.undef⟩) = false)
    ∧ createReducer (JSValue.num 0) [] (JSValue.num 1)
        ⟨some "inc", JSValue.undef⟩ [] = Except.ok ([], JSValue.num 1) :=
  ⟨⟨by decide, rfl, rfl⟩,
    c1_identity_on_miss_amended (JSValue.num 0) (JSValue.num 1) []
      ⟨some "inc", JSValue.undef⟩ [] (by decide) rfl rfl⟩

/-- C3 (counterexample): the claim "transition(undefined, a) for an action a
with no matching handler returns initialState" is false on the code at a
concrete input: with initial state 7, an empty handler map and an action of
kind "toString" — a kind with no registered handler — the undefined state is
substituted by the initial state, but the property access then finds the
inherited Object.prototype.toString, invokes it, and its return value, the
string "[object Undefined]", becomes the result instead of initialState. -/
theorem c3_counterexample :
    createReducer (JSValue.num 7) [] JSValue.undef
        ⟨some "toString", JSValue.undef⟩ []
      = Except.ok ([], JSValue.str "[object Undefined]")
    ∧ JSValue.str "[object Undefined]" ≠ JSValue.num 7 :=
  ⟨rfl, by decide⟩

/-- C3 (amended): a transition invoked with the state `undefined` substitutes
the `initialState` given to `createReducer` — the call behaves exactly as if
the initial state had been passed — and in particular, when the kind of the
action, used as a property key, neither matches an own entry of the handler
map nor names an inherited Object.prototype property, the result is
`initialState` itself. -/
theorem c3_initial_state_substitution_amended (i : JSValue) (m : HandlerMap)
    (a : ActionV) (h : Heap)
    (hown : assoc (propertyKey a) m = none)
    (hproto : isProtoKey (propertyKey a) = false) :
    createReducer i m JSValue.undef a h = createReducer i m i a h
    ∧ createReducer i m JSValue.undef a h = Except.ok (h, i) := by
  have hget : getProperty m (propertyKey a) = none := by
    simp [getProperty, hown, hproto]
  constructor
  · simp [createReducer]
  · simp [createReducer, createNextState, reducerRecipe, hget]

/-- Witness for C3 (amended) at a concrete input: initial state 7, empty
handler map, action type "boot". -/
theorem c3_initial_state_substitution_amended_witness :
    (assoc (propertyKey ⟨some "boot", JSValue.undef⟩) ([] : HandlerMap) = none
      ∧ isProtoKey (propertyKey ⟨some "boot", JSValue.undef⟩) = false)
    ∧ (createReducer (JSValue.num 7) [] JSValue.undef ⟨some "boot", JSValue.undef⟩ []
        = createReducer (JSValue.num 7) [] (JSValue.num 7) ⟨some "boot", JSValue.undef⟩ []
      ∧ createReducer (JSValue.num 7) [] JSValue.undef ⟨some "boot", JSValue.undef⟩ []
        = Except.ok ([], JSValue.num 7)) :=
  ⟨⟨rfl, rfl⟩,
    c3_initial_state_substitution_amended (JSValue.num 7) []
      ⟨some "boot", JSValue.undef⟩ [] rfl rfl⟩

/-- C5 (code bug): the spec requires lookup to be exact-key on the own
entries of the map, never falling back to inherited properties; but the source looks the
handler up with the plain property access `actionsMap[action.type]`, which
does consult the prototype chain. Evaluated at the failing input — a map
whose own keys are only "other", an action of kind "toString" and state 7 —
the code invokes the inherited Object.prototype.toString instead of leaving
the state unchanged, and the state becomes the string "[object Undefined]". -/
theorem c5_prototype_fallback_bug :
    createReducer (JSValue.num 0)
        [("other", fun _ _ _ => ⟨[], HandlerResult.voidRet⟩)]
        (JSValue.num 7) ⟨some "toString", JSValue.undef⟩ []
      = Except.ok ([], JSValue.str "[object Undefined]")
    ∧ JSValue.str "[object Undefined]" ≠ JSValue.num 7 :=
  ⟨rfl, by decide⟩

/-- C8 (counterexample): the claim "for every state s and every action
lacking a kind discriminator, the transition returns s unchanged" is false on
the code: a missing `action.type` reads as `undefined`, which the property
access coerces to the string key "undefined"; with a handler map owning the
key "undefined", that handler is invoked — here it returns 99, so the state
1 is replaced rather than passed through. -/
theorem c8_counterexample :
    createReducer (JSValue.num 0)
        [("undefined", fun _ _ _ => ⟨[], HandlerResult.ret (ValSpec.prim (JSValue.num 99))⟩)]
        (JSValue.num 1) ⟨none, JSValue.undef⟩ []
      = Except.ok ([], JSValue.num 99)
    ∧ JSValue.num 99 ≠ JSValue.num 1 :=
  ⟨rfl, by decide⟩

/-- C8 (amended): for every defined state s and every action lacking a kind
discriminator, the lookup key is the coerced string "undefined"; provided the
handler map has no own entry under that key, no exception is raised and s is
returned unchanged — the missing kind then behaves as an unknown kind. -/
theorem c8_missing_discriminator_amended (i s : JSValue) (m : HandlerMap)
    (a : ActionV) (h : Heap) (hs : s ≠ JSValue.undef)
    (hnone : a.type? = none)
    (hmap : assoc "undefined" m = none) :
    createReducer i m s a h = Except.ok (h, s) := by
  have hpk : propertyKey a = "undefined" := by
    simp [propertyKey, hnone]
  have hproto : isProtoKey "undefined" = false := rfl
  have hget : getProperty m (propertyKey a) = none := by
    rw [hpk]
    simp [getProperty, hmap, hproto]
  exact transition_identity_of_lookup_none i s m a h hs hget

/-- Witness for C8 (amended) at a concrete input: state 1, an action with no
`type` discriminator, empty handler map. -/
theorem c8_missing_discriminator_amended_witness :
    ((JSValue.num 1 ≠ JSValue.undef)
      ∧ (⟨none, JSValue.undef⟩ : ActionV).type? = none
      ∧ assoc "undefined" ([] : HandlerMap) = none)
    ∧ createReducer (JSValue.num 0) [] (JSValue.num 1) ⟨none, JSValue.undef⟩ []
        = Except.ok ([], JSValue.num 1) :=
  ⟨⟨by decide, rfl, rfl⟩,
    c8_missing_discriminator_amended (JSValue.num 0) (JSValue.num 1) []
      ⟨none, JSValue.undef⟩ [] (by decide) rfl rfl⟩

/-- C9: with a fixed handler map (and initial state), the transition function
is deterministic — two invocations given equal state, action and heap produce
equal results. In the source, the returned closure reads only the
construction-time bindings `initialState` and `actionsMap`, which are never
reassigned, so the embedding is a pure function of (state, action, heap) and
no hidden mutable state can influence a later invocation. -/
theorem c9_deterministic (i : JSValue) (m : HandlerMap)
    (s₁ s₂ : JSValue) (a₁ a₂ : ActionV) (h₁ h₂ : Heap)
    (hs : s₁ = s₂) (ha : a₁ = a₂) (hh : h₁ = h₂) :
    createReducer i m s₁ a₁ h₁ = createReducer i m s₂ a₂ h₂ := by
  subst hs
  subst ha
  subst hh
  rfl

/-- Witness for C9 at a concrete input: two invocations on the same state,
action and heap coincide. -/
theorem c9_deterministic_witness :
    createReducer (JSValue.num 0) [] (JSValue.num 5) ⟨some "a", JSValue.undef⟩ []
      = createReducer (JSValue.num 0) [] (JSValue.num 5) ⟨some "a", JSValue.undef⟩ [] :=
  c9_deterministic (JSValue.num 0) [] (JSValue.num 5) (JSValue.num 5)
    ⟨some "a", JSValue.undef⟩ ⟨some "a", JSValue.undef⟩ [] [] rfl rfl rfl

/-- C10: only the value `undefined` triggers the initial-state substitution.
For every defined state argument — including null and the other falsy values
— the transition function runs the dispatch recipe on that very argument,
and its result does not depend on `initialState` at all. -/
theorem c10_defined_state_never_substituted (i i' s : JSValue)
    (m : HandlerMap) (a : ActionV) (h : Heap) (hs : s ≠ JSValue.undef) :
    createReducer i m s a h = createNextState h s (reducerRecipe m a)
    ∧ createReducer i m s a h = createReducer i' m s a h := by
  constructor
  · simp [createReducer, hs]
  · simp [createReducer, hs]

/-- Witness for C10 at a concrete input: the state `null` is not replaced by
the initial state, and the result is the same for two different initial
states. -/
theorem c10_defined_state_never_substituted_witness :
    (JSValue.null ≠ JSValue.undef)
    ∧ (createReducer (JSValue.num 0) [] JSValue.null ⟨some "a", JSValue.undef⟩ []
        = createNextState [] JSValue.null (reducerRecipe [] ⟨some "a", JSValue.undef⟩)
      ∧ createReducer (JSValue.num 0) [] JSValue.null ⟨some "a", JSValue.undef⟩ []
        = createReducer (JSValue.num 9) [] JSValue.null ⟨some "a", JSValue.undef⟩ []) :=
  ⟨by decide,
    c10_defined_state_never_substituted (JSValue.num 0) (JSValue.num 9)
      JSValue.null [] ⟨some "a", JSValue.undef⟩ [] (by decide)⟩

/-- C7: when the selected handler throws, the exception propagates out of the
transition function uncaught and untranslated (the result is exactly that
error, with the original message), and no state — partial or otherwise — is
produced: the prior state value of the caller and every object in the prior heap
are untouched, since the error result carries no new state. -/
theorem c7_handler_throw_propagates (i s : JSValue) (m : HandlerMap)
    (a : ActionV) (h : Heap) (cr : CaseReducer) (msg : String)
    (hget : getProperty m (propertyKey a) = some cr)
    (hthrow : (cr h (if s = JSValue.undef then i else s) a).result
      = HandlerResult.throw msg) :
    createReducer i m s a h = Except.error msg := by
  simp [createReducer, createNextState, reducerRecipe, hget, hthrow]

/-- Witness for C7 at a concrete input: a handler for kind "t" that throws
"boom" after editing the draft; the transition propagates exactly "boom". -/
theorem c7_handler_throw_propagates_witness :
    (getProperty
        [("t", fun _ _ _ => (⟨[("x", ValSpec.prim JSValue.null)], HandlerResult.throw "boom"⟩ : CaseOutcome))]
        (propertyKey ⟨some "t", JSValue.undef⟩)
      = some (fun _ _ _ => (⟨[("x", ValSpec.prim JSValue.null)], HandlerResult.throw "boom"⟩ : CaseOutcome)))
    ∧ createReducer (JSValue.num 0)
        [("t", fun _ _ _ => (⟨[("x", ValSpec.prim JSValue.null)], HandlerResult.throw "boom"⟩ : CaseOutcome))]
        (JSValue.num 3) ⟨some "t", JSValue.undef⟩ []
      = Except.error "boom" :=
  ⟨rfl,
    c7_handler_throw_propagates (JSValue.num 0) (JSValue.num 3)
      [("t", fun _ _ _ => (⟨[("x", ValSpec.prim JSValue.null)], HandlerResult.throw "boom"⟩ : CaseOutcome))]
      ⟨some "t", JSValue.undef⟩ []
      (fun _ _ _ => (⟨[("x", ValSpec.prim JSValue.null)], HandlerResult.throw "boom"⟩ : CaseOutcome))
      "boom" rfl rfl⟩

/-- C4: when the selected handler both mutates the draft (its edit list is
nonempty) and returns an explicit new value, the result of the transition is the
returned value (allocated into the heap), not the state obtained by
reconciling the draft mutations — the edits play no part in the result. -/
theorem c4_return_wins_over_mutation (i s : JSValue) (m : HandlerMap)
    (a : ActionV) (h : Heap) (cr : CaseReducer) (vs : ValSpec)
    (hs : s ≠ JSValue.undef)
    (hget : getProperty m (propertyKey a) = some cr)
    (_hmut : (cr h s a).edits ≠ [])
    (hret : (cr h s a).result = HandlerResult.ret vs) :
    createReducer i m s a h = Except.ok ((allocSpec h vs).1, (allocSpec h vs).2) := by
  simp [createReducer, createNextState, reducerRecipe, hget, hret, hs]

/-- Witness for C4 at a concrete input: a handler for kind "both" that sets
draft.x to 1 and then returns 42; the result is 42 and the draft edit is
discarded. -/
theorem c4_return_wins_over_mutation_witness :
    ((JSValue.num 0 ≠ JSValue.undef)
      ∧ getProperty
          [("both", fun _ _ _ =>
            (⟨[("x", ValSpec.prim (JSValue.num 1))],
              HandlerResult.ret (ValSpec.prim (JSValue.num 42))⟩ : CaseOutcome))]
          (propertyKey ⟨some "both", JSValue.undef⟩)
        = some (fun _ _ _ =>
            (⟨[("x", ValSpec.prim (JSValue.num 1))],
              HandlerResult.ret (ValSpec.prim (JSValue.num 42))⟩ : CaseOutcome)))
    ∧ createReducer (JSValue.num 5)
        [("both", fun _ _ _ =>
          (⟨[("x", ValSpec.prim (JSValue.num 1))],
            HandlerResult.ret (ValSpec.prim (JSValue.num 42))⟩ : CaseOutcome))]
        (JSValue.num 0) ⟨some "both", JSValue.undef⟩ []
      = Except.ok ([], JSValue.num 42) :=
  ⟨⟨by decide, rfl⟩,
    c4_return_wins_over_mutation (JSValue.num 5) (JSValue.num 0)
      [("both", fun _ _ _ =>
        (⟨[("x", ValSpec.prim (JSValue.num 1))],
          HandlerResult.ret (ValSpec.prim (JSValue.num 42))⟩ : CaseOutcome))]
      ⟨some "both", JSValue.undef⟩ []
      (fun _ _ _ =>
        (⟨[("x", ValSpec.prim (JSValue.num 1))],
          HandlerResult.ret (ValSpec.prim (JSValue.num 42))⟩ : CaseOutcome))
      (ValSpec.prim (JSValue.num 42)) (by decide)
      rfl (List.cons_ne_nil _ _) rfl⟩

/-- C2: the object passed in as the state is never modified by a transition,
regardless of what the selected handler does to the draft: whenever the
transition function succeeds, every object present in the heap before the
call — in particular the state object and everything it references — is
still present, unchanged, at the same reference afterwards; the new state is
built purely by fresh allocation. -/
theorem c2_no_mutation_of_input (i s v : JSValue) (m : HandlerMap)
    (a : ActionV) (h h' : Heap) (r : Ref) (o : JSObject)
    (hok : createReducer i m s a h = Except.ok (h', v))
    (hr : assoc r h = some o) :
    assoc r h' = some o := by
  unfold createReducer at hok
  exact createNextState_preserves hok hr

/-- Witness for C2 at a concrete input: a handler for kind "setx" that edits
the draft; object 0 of the prior heap is unchanged in the resulting heap. -/
theorem c2_no_mutation_of_input_witness :
    (createReducer (JSValue.num 0)
        [("setx", fun _ _ _ =>
          (⟨[("x", ValSpec.prim (JSValue.num 5))], HandlerResult.voidRet⟩ : CaseOutcome))]
        (JSValue.ref 0) ⟨some "setx", JSValue.undef⟩
        [(0, ⟨[("x", JSValue.num 3), ("y", JSValue.str "keep")]⟩)]
      = Except.ok ((1, ⟨[("x", JSValue.num 5), ("y", JSValue.str "keep")]⟩)
            :: [(0, ⟨[("x", JSValue.num 3), ("y", JSValue.str "keep")]⟩)],
          JSValue.ref 1)
      ∧ assoc 0 ([(0, ⟨[("x", JSValue.num 3), ("y", JSValue.str "keep")]⟩)] : Heap)
        = some ⟨[("x", JSValue.num 3), ("y", JSValue.str "keep")]⟩)
    ∧ assoc 0 (((1, ⟨[("x", JSValue.num 5), ("y", JSValue.str "keep")]⟩)
          :: [(0, ⟨[("x", JSValue.num 3), ("y", JSValue.str "keep")]⟩)]) : Heap)
        = some ⟨[("x", JSValue.num 3), ("y", JSValue.str "keep")]⟩ :=
  ⟨⟨rfl, rfl⟩,
    c2_no_mutation_of_input (JSValue.num 0) (JSValue.ref 0) (JSValue.ref 1)
      [("setx", fun _ _ _ =>
        (⟨[("x", ValSpec.prim (JSValue.num 5))], HandlerResult.voidRet⟩ : CaseOutcome))]
      ⟨some "setx", JSValue.undef⟩
      [(0, ⟨[("x", JSValue.num 3), ("y", JSValue.str "keep")]⟩)]
      ((1, ⟨[("x", JSValue.num 5), ("y", JSValue.str "keep")]⟩)
        :: [(0, ⟨[("x", JSValue.num 3), ("y", JSValue.str "keep")]⟩)])
      0 ⟨[("x", JSValue.num 3), ("y", JSValue.str "keep")]⟩ rfl rfl⟩

/-- C6: a handler that assigns 5 (in general, a primitive value xv) to the
draft field "x" and returns nothing yields a state whose "x" field is that
new value, while every other field of the input object is carried over
untouched — the same JSValue, hence reference-equal for object-valued
fields; the result is a freshly allocated object and the input object is
left as it was in the heap. -/
theorem c6_in_place_edit_reconciliation (i : JSValue) (m : HandlerMap)
    (a : ActionV) (h : Heap) (r : Ref) (obj : JSObject) (cr : CaseReducer)
    (xv : JSValue)
    (hlook : assoc r h = some obj)
    (hget : getProperty m (propertyKey a) = some cr)
    (hrun : cr h (JSValue.ref r) a
      = ⟨[("x", ValSpec.prim xv)], HandlerResult.voidRet⟩) :
    createReducer i m (JSValue.ref r) a h
      = Except.ok ((Heap.fresh h, ⟨setField obj.fields "x" xv⟩) :: h,
          JSValue.ref (Heap.fresh h))
    ∧ assoc "x" (setField obj.fields "x" xv) = some xv
    ∧ ∀ f w, f ≠ "x" → assoc f obj.fields = some w →
        assoc f (setField obj.fields "x" xv) = some w := by
  refine ⟨?_, assoc_setField_same _ _ _, fun f w hf hw => ?_⟩
  · simp [createReducer, createNextState, reducerRecipe, hget, hrun, hlook,
      applyEdits, allocSpec]
  · rw [assoc_setField_ne _ _ _ _ hf]
    exact hw

/-- Witness for C6 at a concrete input: state is object 0 with fields x = 3
and y = "keep"; the "setx" handler assigns 5 to draft.x; the result is a
fresh object 1 with x = 5 and y carried over unchanged. -/
theorem c6_in_place_edit_reconciliation_witness :
    (assoc 0 ([(0, ⟨[("x", JSValue.num 3), ("y", JSValue.str "keep")]⟩)] : Heap)
        = some ⟨[("x", JSValue.num 3), ("y", JSValue.str "keep")]⟩
      ∧ getProperty
          [("setx", fun _ _ _ =>
            (⟨[("x", ValSpec.prim (JSValue.num 5))], HandlerResult.voidRet⟩ : CaseOutcome))]
          (propertyKey ⟨some "setx", JSValue.undef⟩)
        = some (fun _ _ _ =>
            (⟨[("x", ValSpec.prim (JSValue.num 5))], HandlerResult.voidRet⟩ : CaseOutcome)))
    ∧ (createReducer (JSValue.num 0)
          [("setx", fun _ _ _ =>
            (⟨[("x", ValSpec.prim (JSValue.num 5))], HandlerResult.voidRet⟩ : CaseOutcome))]
          (JSValue.ref 0) ⟨some "setx", JSValue.undef⟩
          [(0, ⟨[("x", JSValue.num 3), ("y", JSValue.str "keep")]⟩)]
        = Except.ok
            ((Heap.fresh [(0, ⟨[("x", JSValue.num 3), ("y", JSValue.str "keep")]⟩)],
                ⟨setField (⟨[("x", JSValue.num 3), ("y", JSValue.str "keep")]⟩ : JSObject).fields
                  "x" (JSValue.num 5)⟩)
              :: [(0, ⟨[("x", JSValue.num 3), ("y", JSValue.str "keep")]⟩)],
              JSValue.ref (Heap.fresh [(0, ⟨[("x", JSValue.num 3), ("y", JSValue.str "keep")]⟩)]))
      ∧ assoc "x"
          (setField (⟨[("x", JSValue.num 3), ("y", JSValue.str "keep")]⟩ : JSObject).fields
            "x" (JSValue.num 5)) = some (JSValue.num 5)
      ∧ ∀ f w, f ≠ "x" →
          assoc f (⟨[("x", JSValue.num 3), ("y", JSValue.str "keep")]⟩ : JSObject).fields = some w →
          assoc f
            (setField (⟨[("x", JSValue.num 3), ("y", JSValue.str "keep")]⟩ : JSObject).fields
              "x" (JSValue.num 5)) = some w) :=
  ⟨⟨rfl, rfl⟩,
    c6_in_place_edit_reconciliation (JSValue.num 0)
      [("setx", fun _ _ _ =>
        (⟨[("x", ValSpec.prim (JSValue.num 5))], HandlerResult.voidRet⟩ : CaseOutcome))]
      ⟨some "setx", JSValue.undef⟩
      [(0, ⟨[("x", JSValue.num 3), ("y", JSValue.str "keep")]⟩)]
      0 ⟨[("x", JSValue.num 3), ("y", JSValue.str "keep")]⟩
      (fun _ _ _ =>
        (⟨[("x", ValSpec.prim (JSValue.num 5))], HandlerResult.voidRet⟩ : CaseOutcome))
      (JSValue.num 5) rfl rfl rfl⟩
